import Mathlib

/-!
# Verification of the qcow2 header decoder

A shallow embedding of `src/qcow2.go` (package `main` of vbatts/qcow2),
a decoder for the fixed header and the header-extension area of qcow2
virtual-disk images (versions 2 and 3).

Bytes are modelled as `List Nat` (Go `[]byte`; every entry produced by a
real file is below 256, but none of the decoder logic depends on that
bound).  The Go program is a `main` that reads from a file handle and
exits on errors; we embed it as pure functions over the byte sequence of
the file:

* `be32`, `be64` — the big-endian primitives (lines 106-112);
* `decodeHeader` — lines 22-70: the 72-byte fixed read, magic check,
  v2 field extraction and the conditional 32-byte v3 field read.
  Error exits are modelled as `Except.error` of a `DecodeErr`;
* `walkExtensions` — lines 86-101: the extension-record loop.  The Go
  loop has no bounds checks of its own, so an undersized buffer makes a
  slice expression (`buf[:4]`, `buf[4:8]`, `buf[8:8+size]`,
  `buf[8+size+round:]`) panic at runtime; those runtime panics are
  modelled by the `WalkResult.panic` constructor;
* `decodeImage` — the whole per-file pipeline (lines 22-103), including
  the `headerLength`-byte read of the extension area.

Throughout, every slice of Go's `buf` is a suffix of a `make([]byte, n)`
allocation, so `len(buf) == cap(buf)` at every step and a slice
expression `buf[a:b]` panics exactly when `b > len(buf)`.
-/

/-- Go `be32` (line 106): `int(binary.BigEndian.Uint32(b))` — the 32-bit
big-endian integer formed by the first four bytes of the slice.  Call
sites always supply a slice of length at least 4. -/
def be32 (b : List Nat) : Nat :=
  16777216 * b.getD 0 0 + 65536 * b.getD 1 0 + 256 * b.getD 2 0 + b.getD 3 0

/-- Go `be64` (line 110): `int64(binary.BigEndian.Uint64(b))` — the
64-bit big-endian integer of the first eight bytes, wrapped into a
signed 64-bit value as Go's `int64` conversion does. -/
def be64 (b : List Nat) : Int :=
  let n := 72057594037927936 * b.getD 0 0 + 281474976710656 * b.getD 1 0 +
    1099511627776 * b.getD 2 0 + 4294967296 * b.getD 3 0 +
    16777216 * b.getD 4 0 + 65536 * b.getD 5 0 + 256 * b.getD 6 0 + b.getD 7 0
  if n < 9223372036854775808 then (n : Int) else (n : Int) - 18446744073709551616

/-- `Qcow2Version` (line 127): version number of the image, a Go `int`. -/
abbrev Qcow2Version := Nat

/-- `CryptMethod` (line 130): 0 for none, 1 for AES. -/
abbrev CryptMethod := Nat

/-- `HeaderExtensionType` (line 133): the 32-bit type tag of an
extension record. -/
abbrev HeaderExtensionType := Nat

/-- `Qcow2Magic` (line 116): the four magic bytes at the front of every
qcow2 file. -/
def Qcow2Magic : List Nat := [0x51, 0x46, 0x49, 0xFB]

/-- `Qcow2V2HeaderSize` (line 119): size of the fixed v2 header. -/
def Qcow2V2HeaderSize : Nat := 72

/-- `Qcow2V3HeaderSize` (line 122): size of the extra v3 field block. -/
def Qcow2V3HeaderSize : Nat := 104 - Qcow2V2HeaderSize

/-- `HdrExtEndOfArea` (line 137): the terminator type tag. -/
def HdrExtEndOfArea : HeaderExtensionType := 0x00000000

/-- `HdrExtBackingFileFormat` (line 138). -/
def HdrExtBackingFileFormat : HeaderExtensionType := 0xE2792ACA

/-- `HdrExtFeatureNameTable` (line 139). -/
def HdrExtFeatureNameTable : HeaderExtensionType := 0x6803f857

/-- `ExtHeader` (line 176): one extension record.  Go's field `Type` is
a reserved word in Lean, rendered here as `extType`. -/
structure ExtHeader where
  extType : HeaderExtensionType
  Size : Nat
  Data : List Nat
deriving Repr, DecidableEq

/-- `Header` (line 150): the decoded image header.  Field types follow
the Go struct (`int64` fields as `Int`, `int` fields holding `be32`
results as `Nat`). -/
structure Header where
  Version : Qcow2Version
  BackingFileOffset : Int
  BackingFileSize : Nat
  ClusterBits : Nat
  Size : Int
  CryptMethod : CryptMethod
  L1Size : Nat
  L1TableOffset : Int
  RefcountTableOffset : Int
  RefcountTableClusters : Nat
  NbSnapshots : Nat
  SnapshotsOffset : Int
  IncompatibleFeatures : Nat
  CompatibleFeatures : Nat
  AutoclearFeatures : Nat
  RefcountOrder : Nat
  HeaderLength : Nat
  ExtHeaders : List ExtHeader
deriving Repr, DecidableEq

/-- The error exits of the Go `main`, named as in the specification:
`shortInput` for the `short read` / read-error exits, `badMagic` for the
magic-mismatch exit. -/
inductive DecodeErr where
  | shortInput
  | badMagic
deriving Repr, DecidableEq

/-- Result of the extension walk: either the ordered record list, or a
Go runtime panic (slice bounds out of range). -/
inductive WalkResult where
  | ok (exts : List ExtHeader)
  | panic
deriving Repr, DecidableEq

/-- Prepend a record to a successful walk result; a panic propagates.
This is the shape of one Go loop iteration that appends a record and
continues. -/
def consExt (e : ExtHeader) : WalkResult → WalkResult
  | .ok exts => .ok (e :: exts)
  | .panic => .panic

/-- The extension-area loop of lines 86-101, on the remaining buffer.

One Go iteration: `be32(buf[:4])` (panics when `len(buf) < 4`); break on
the terminator tag; `be32(buf[4:8])` (panics when `len(buf) < 8`);
`buf[8 : 8+size]` (panics when `len(buf) < 8+size`); append the record;
`round := size % 8`; `buf = buf[8+size+round:]` (panics when
`len(buf) < 8+size+round`).  The two payload/reslice bounds are merged
into the single stronger check `len(buf) < 8 + size + size % 8`; both
failure modes are the same runtime panic. -/
def walkLoop (buf : List Nat) : WalkResult :=
  if buf.length < 4 then .panic
  else if be32 buf = HdrExtEndOfArea then .ok []
  else if buf.length < 8 then .panic
  else
    let size := be32 (buf.drop 4)
    if h : buf.length < 8 + size + size % 8 then .panic
    else
      consExt ⟨be32 buf, size, (buf.drop 8).take size⟩
        (walkLoop (buf.drop (8 + size + size % 8)))
termination_by buf.length
decreasing_by
  simp only [List.length_drop]
  omega

/-- `walkExtensions` — the walker's contract from §4.2 of the format
notes: walk a buffer that holds the whole extension area. -/
def walkExtensions (buf : List Nat) : WalkResult :=
  walkLoop buf

/-- Lines 22-70 of `main`: read 72 bytes (short read is an error), check
the magic, extract the fixed v2 fields, fix `HeaderLength` at 72; when
the version field is 3, read 32 further bytes (short read is an error)
and extract the v3 fields exactly as the source does — note the source
passes 8-byte slices to `be32` for the three feature bitmasks, so only
the first four bytes of each participate. -/
def decodeHeader (file : List Nat) : Except DecodeErr Header :=
  if file.length < Qcow2V2HeaderSize then .error .shortInput
  else if file.take 4 ≠ Qcow2Magic then .error .badMagic
  else
    let q : Header :=
      { Version := be32 (file.drop 4)
        BackingFileOffset := be64 (file.drop 8)
        BackingFileSize := be32 (file.drop 16)
        ClusterBits := be32 (file.drop 20)
        Size := be64 (file.drop 24)
        CryptMethod := be32 (file.drop 32)
        L1Size := be32 (file.drop 36)
        L1TableOffset := be64 (file.drop 40)
        RefcountTableOffset := be64 (file.drop 48)
        RefcountTableClusters := be32 (file.drop 56)
        NbSnapshots := be32 (file.drop 60)
        SnapshotsOffset := be64 (file.drop 64)
        IncompatibleFeatures := 0
        CompatibleFeatures := 0
        AutoclearFeatures := 0
        RefcountOrder := 0
        HeaderLength := 72
        ExtHeaders := [] }
    if q.Version = 3 then
      if file.length < Qcow2V2HeaderSize + Qcow2V3HeaderSize then .error .shortInput
      else .ok { q with
        IncompatibleFeatures := be32 (file.drop 72)
        CompatibleFeatures := be32 (file.drop 80)
        AutoclearFeatures := be32 (file.drop 88)
        RefcountOrder := be32 (file.drop 96)
        HeaderLength := be32 (file.drop 100) }
    else .ok q

/-- Outcome of the whole per-file pipeline: a decoded header, an error
exit, or a runtime panic raised inside the extension walk. -/
inductive DecodeOutcome where
  | ok (h : Header)
  | err (e : DecodeErr)
  | panic
deriving Repr, DecidableEq

/-- The number of fixed header bytes `main` has consumed before it reads
the extension area: 104 when the version field is 3 (72 + 32), else 72. -/
def fixedSize (v : Qcow2Version) : Nat :=
  if v = 3 then Qcow2V2HeaderSize + Qcow2V3HeaderSize else Qcow2V2HeaderSize

/-- Lines 22-103 of `main` for one file: decode the fixed header, then
read `HeaderLength` bytes from the position after the fixed fields
(short read is an error) and walk them as the extension area. -/
def decodeImage (file : List Nat) : DecodeOutcome :=
  match decodeHeader file with
  | .error e => .err e
  | .ok q =>
    let rest := file.drop (fixedSize q.Version)
    if rest.length < q.HeaderLength then .err .shortInput
    else
      match walkExtensions (rest.take q.HeaderLength) with
      | .ok exts => .ok { q with ExtHeaders := exts }
      | .panic => .panic

/-- Concrete extension buffer for the stride analysis: one record of
type 1 and declared size 5, its 5 payload bytes, 3 padding bytes up to
the 8-byte boundary, a terminator record header at offset 16, and four
trailing 0xFF bytes. -/
def strideBuf : List Nat :=
  [0,0,0,1, 0,0,0,5, 9,9,9,9,9, 0,0,0, 0,0,0,0, 255,255,255,255]

/-- Concrete 104-byte v3 header: valid magic, version 3, zero fields,
incompatible-features bytes [72:80] holding the 64-bit value 1,
refcount order 4 at [96:100] and header length 104 at [100:104]. -/
def v3file : List Nat :=
  [0x51,0x46,0x49,0xFB, 0,0,0,3] ++ List.replicate 64 0 ++
    [0,0,0,0,0,0,0,1] ++ List.replicate 16 0 ++ [0,0,0,4, 0,0,0,104]

/-- Concrete 72-byte header with valid magic and version field 4. -/
def v4file : List Nat :=
  [0x51,0x46,0x49,0xFB, 0,0,0,4] ++ List.replicate 64 0

/-- Concrete valid v2 header: magic, version 2, zeroed fields. -/
def v2file : List Nat := [0x51,0x46,0x49,0xFB, 0,0,0,2] ++ List.replicate 64 0

/-- Concrete 144-byte v2 image: 72 fixed header bytes followed by a
72-byte extension area that starts with a terminator. -/
def v2image : List Nat := v2file ++ List.replicate 72 0

/-- The header `decodeImage` produces for `v2image`. -/
def v2imageHdr : Header :=
  { Version := 2, BackingFileOffset := 0, BackingFileSize := 0, ClusterBits := 0,
    Size := 0, CryptMethod := 0, L1Size := 0, L1TableOffset := 0,
    RefcountTableOffset := 0, RefcountTableClusters := 0, NbSnapshots := 0,
    SnapshotsOffset := 0, IncompatibleFeatures := 0, CompatibleFeatures := 0,
    AutoclearFeatures := 0, RefcountOrder := 0, HeaderLength := 72,
    ExtHeaders := [] }

/-- Concrete buffer for the C9 witness: a record with the unlisted tag
7 and size 0, followed by a terminator. -/
def tag7Buf : List Nat := [0,0,0,7, 0,0,0,0, 0,0,0,0]

/-- Concrete buffer for the C10 witness: a record with tag 0xCA, size 4
and payload bytes 1,2,3,4, then 4 bytes the code's stride skips, then a
terminator. -/
def caBuf : List Nat := [0,0,0,0xCA, 0,0,0,4, 1,2,3,4, 9,9,9,9, 0,0,0,0]

/-- Claim C1, evaluated on the code: the buffer has a terminator at offset 8 + 5 + (8 - 5 % 8) = 16,
exactly where a walker using the aligned stride would read next, yet the
code's walk panics: it advances 8 + 5 + 5 % 8 = 18 bytes instead. -/
theorem walk_stride_size5_panics :
    be32 (strideBuf.drop (8 + 5 + (8 - 5 % 8))) = HdrExtEndOfArea ∧
    walkExtensions strideBuf = .panic := by
  constructor
  · decide
  · unfold walkExtensions
    rw [walkLoop]
    norm_num [be32, HdrExtEndOfArea, strideBuf]
    rw [walkLoop]
    norm_num [be32, HdrExtEndOfArea, consExt]

/-- Claim C2, evaluated on the code: the 64-bit big-endian integer at bytes [72:80] of `v3file`
is 1, but the decoder populates `IncompatibleFeatures` with 0 — it only
reads the 32-bit value at [72:76].  Refcount order and header length are
decoded as claimed. -/
theorem v3_feature_fields_truncated_to_32bit :
    be64 (v3file.drop 72) = 1 ∧
    (decodeHeader v3file).map
      (fun h => (h.IncompatibleFeatures, h.RefcountOrder, h.HeaderLength)) =
      .ok (0, 4, 104) := by
  refine ⟨by decide, ?_⟩
  rfl

/-- Claim C3, evaluated on the code: an 8-byte extension buffer declaring a 16-byte payload
makes the walk panic (Go slice bounds), not fail with a typed
truncation error. -/
theorem truncated_extension_panics :
    walkExtensions [0,0,0,1, 0,0,0,16] = .panic := by
  unfold walkExtensions
  rw [walkLoop]
  norm_num [be32, HdrExtEndOfArea]

/-- Claim C4, evaluated on the code: a buffer holding one record of type 1, size 0 and nothing
after it is exhausted without a terminator; the walk panics (Go slice
bounds), not fail with a typed missing-terminator error. -/
theorem missing_terminator_panics :
    walkExtensions [0,0,0,1, 0,0,0,0] = .panic := by
  unfold walkExtensions
  rw [walkLoop]
  norm_num [be32, HdrExtEndOfArea]
  rw [walkLoop]
  simp [consExt]

/-- Claim C5, evaluated on the code: on a version-4 input the decoder returns a decoded header
(version 4, header length 72) instead of failing. -/
theorem version4_decoded_as_v2 :
    (decodeHeader v4file).map (fun h => (h.Version, h.HeaderLength)) =
      .ok (4, 72) := by
  rfl

/-- Claim C7: a valid v2 header buffer (length at least 72, correct magic,
version field 2) decodes to a header with version 2, header length 72
and all v3-only fields zero. -/
theorem decodeHeader_valid_v2 (file : List Nat)
    (hlen : 72 ≤ file.length) (hmagic : file.take 4 = Qcow2Magic)
    (hver : be32 (file.drop 4) = 2) :
    (decodeHeader file).map (fun h =>
      (h.Version, h.HeaderLength, h.IncompatibleFeatures, h.CompatibleFeatures,
        h.AutoclearFeatures, h.RefcountOrder)) = .ok (2, 72, 0, 0, 0, 0) := by
  have h72 : ¬ file.length < 72 := by omega
  simp only [decodeHeader, Qcow2V2HeaderSize, h72, if_false, hmagic, hver,
    ite_true, ite_false, if_neg, reduceIte]
  rfl

/-- Witness for `decodeHeader_valid_v2` at `v2file`. -/
theorem decodeHeader_valid_v2_w :
    (decodeHeader v2file).map (fun h =>
      (h.Version, h.HeaderLength, h.IncompatibleFeatures, h.CompatibleFeatures,
        h.AutoclearFeatures, h.RefcountOrder)) = .ok (2, 72, 0, 0, 0, 0) :=
  decodeHeader_valid_v2 v2file (by decide) (by decide) (by decide)

/-- Claim C8: any buffer of length at least 72 whose first four bytes differ
from the qcow2 magic makes the decoder fail with the bad-magic error,
whatever the remaining bytes hold. -/
theorem decodeHeader_bad_magic (file : List Nat)
    (hlen : 72 ≤ file.length) (hmagic : file.take 4 ≠ Qcow2Magic) :
    decodeHeader file = .error .badMagic := by
  have h72 : ¬ file.length < 72 := by omega
  simp [decodeHeader, Qcow2V2HeaderSize, h72, hmagic]

/-- Witness for `decodeHeader_bad_magic` on a 72-byte zero buffer. -/
theorem decodeHeader_bad_magic_w :
    decodeHeader (List.replicate 72 0) = .error .badMagic :=
  decodeHeader_bad_magic (List.replicate 72 0) (by decide) (by decide)

/-- Claim C6: whenever the pipeline decodes an image successfully, the buffer
handed to the extension walker is exactly `HeaderLength` bytes long and
starts right after the fixed header fields (72 bytes, or 104 when the
version is 3) — `HeaderLength` sizes the extension region, not the whole
header from offset 0. -/
theorem decodeImage_walks_headerLength_after_fixed (file : List Nat) (h : Header)
    (hok : decodeImage file = .ok h) :
    ((file.drop (fixedSize h.Version)).take h.HeaderLength).length = h.HeaderLength ∧
    walkExtensions ((file.drop (fixedSize h.Version)).take h.HeaderLength) =
      .ok h.ExtHeaders := by
  unfold decodeImage at hok
  cases hd : decodeHeader file with
  | error e => rw [hd] at hok; simp at hok
  | ok q =>
    rw [hd] at hok
    simp only at hok
    by_cases hrest : (file.drop (fixedSize q.Version)).length < q.HeaderLength
    · rw [if_pos hrest] at hok; simp at hok
    · rw [if_neg hrest] at hok
      cases hw : walkExtensions ((file.drop (fixedSize q.Version)).take q.HeaderLength) with
      | panic => rw [hw] at hok; simp at hok
      | ok exts =>
        rw [hw] at hok
        simp only [DecodeOutcome.ok.injEq] at hok
        subst hok
        simp only [List.length_drop] at hrest
        refine ⟨?_, ?_⟩
        · simp only [List.length_take, List.length_drop]
          omega
        · simpa using hw

set_option maxRecDepth 8000 in

/-- Witness for `decodeImage_walks_headerLength_after_fixed` at `v2image`. -/
theorem decodeImage_walks_headerLength_after_fixed_w :
    ((v2image.drop (fixedSize v2imageHdr.Version)).take v2imageHdr.HeaderLength).length =
      v2imageHdr.HeaderLength ∧
    walkExtensions ((v2image.drop (fixedSize v2imageHdr.Version)).take v2imageHdr.HeaderLength) =
      .ok v2imageHdr.ExtHeaders :=
  decodeImage_walks_headerLength_after_fixed v2image v2imageHdr (by
    have hd : decodeHeader v2image = .ok v2imageHdr := by rfl
    have hb : (v2image.drop (fixedSize v2imageHdr.Version)).take v2imageHdr.HeaderLength =
        List.replicate 72 0 := by decide
    have hw : walkExtensions ((v2image.drop (fixedSize v2imageHdr.Version)).take
        v2imageHdr.HeaderLength) = .ok [] := by
      rw [hb]
      unfold walkExtensions
      rw [walkLoop]
      norm_num [be32, HdrExtEndOfArea]
    unfold decodeImage
    rw [hd]
    simp only
    rw [if_neg (by decide)]
    rw [hw]
    rfl)

/-- One non-terminator iteration of the walk, for any tag value: when
the guards pass, the record is appended unconditionally and the walk
resumes `8 + size + size % 8` bytes further on. -/
lemma walkLoop_cons (buf : List Nat) (h8 : 8 ≤ buf.length)
    (ht : be32 buf ≠ HdrExtEndOfArea)
    (hs : 8 + be32 (buf.drop 4) + be32 (buf.drop 4) % 8 ≤ buf.length) :
    walkLoop buf = consExt
      ⟨be32 buf, be32 (buf.drop 4), (buf.drop 8).take (be32 (buf.drop 4))⟩
      (walkLoop (buf.drop (8 + be32 (buf.drop 4) + be32 (buf.drop 4) % 8))) := by
  rw [walkLoop]
  rw [if_neg (by omega : ¬ buf.length < 4), if_neg ht,
    if_neg (by omega : ¬ buf.length < 8)]
  rw [dif_neg (by omega : ¬ buf.length < 8 + be32 (buf.drop 4) + be32 (buf.drop 4) % 8)]

/-- Every record of a successful walk has a nonzero type tag. -/
lemma walkLoop_ok_no_terminator :
    ∀ n buf exts, (buf : List Nat).length ≤ n → walkLoop buf = .ok exts →
      ∀ e ∈ exts, e.extType ≠ HdrExtEndOfArea := by
  intro n
  induction n using Nat.strong_induction_on with
  | _ n ih =>
    intro buf exts hlen hw e he
    rw [walkLoop] at hw
    by_cases h4 : buf.length < 4
    · rw [if_pos h4] at hw; simp at hw
    rw [if_neg h4] at hw
    by_cases ht : be32 buf = HdrExtEndOfArea
    · rw [if_pos ht] at hw
      simp only [WalkResult.ok.injEq] at hw
      subst hw
      simp at he
    rw [if_neg ht] at hw
    by_cases h8 : buf.length < 8
    · rw [if_pos h8] at hw; simp at hw
    rw [if_neg h8] at hw
    by_cases hsz : buf.length < 8 + be32 (buf.drop 4) + be32 (buf.drop 4) % 8
    · rw [dif_pos hsz] at hw; simp at hw
    rw [dif_neg hsz] at hw
    cases hrec : walkLoop (buf.drop (8 + be32 (buf.drop 4) + be32 (buf.drop 4) % 8)) with
    | panic => rw [hrec] at hw; simp [consExt] at hw
    | ok exts' =>
      rw [hrec] at hw
      simp only [consExt, WalkResult.ok.injEq] at hw
      subst hw
      rcases List.mem_cons.mp he with rfl | he'
      · exact ht
      · have hlt : (buf.drop (8 + be32 (buf.drop 4) + be32 (buf.drop 4) % 8)).length < n := by
          simp only [List.length_drop]
          omega
        exact ih _ hlt _ _ le_rfl hrec e he'

/-- Every record of a successful walk sits at an in-bounds offset of
the walked buffer: its tag and size are the 32-bit big-endian integers
at that offset and at offset + 4, and its data is exactly the `Size`
bytes after the 8-byte record header. -/
lemma walkLoop_ok_layout :
    ∀ n buf exts, (buf : List Nat).length ≤ n → walkLoop buf = .ok exts →
      ∀ e ∈ exts, ∃ off, off + 8 + e.Size ≤ buf.length ∧
        e.extType = be32 (buf.drop off) ∧
        e.Size = be32 (buf.drop (off + 4)) ∧
        e.Data = (buf.drop (off + 8)).take e.Size ∧
        e.Data.length = e.Size := by
  intro n
  induction n using Nat.strong_induction_on with
  | _ n ih =>
    intro buf exts hlen hw e he
    rw [walkLoop] at hw
    by_cases h4 : buf.length < 4
    · rw [if_pos h4] at hw; simp at hw
    rw [if_neg h4] at hw
    by_cases ht : be32 buf = HdrExtEndOfArea
    · rw [if_pos ht] at hw
      simp only [WalkResult.ok.injEq] at hw
      subst hw
      simp at he
    rw [if_neg ht] at hw
    by_cases h8 : buf.length < 8
    · rw [if_pos h8] at hw; simp at hw
    rw [if_neg h8] at hw
    by_cases hsz : buf.length < 8 + be32 (buf.drop 4) + be32 (buf.drop 4) % 8
    · rw [dif_pos hsz] at hw; simp at hw
    rw [dif_neg hsz] at hw
    cases hrec : walkLoop (buf.drop (8 + be32 (buf.drop 4) + be32 (buf.drop 4) % 8)) with
    | panic => rw [hrec] at hw; simp [consExt] at hw
    | ok exts' =>
      rw [hrec] at hw
      simp only [consExt, WalkResult.ok.injEq] at hw
      subst hw
      rcases List.mem_cons.mp he with rfl | he'
      · refine ⟨0, by simp only; omega, by simp, by norm_num, by norm_num, ?_⟩
        simp only [List.length_take, List.length_drop]
        omega
      · have hlt : (buf.drop (8 + be32 (buf.drop 4) + be32 (buf.drop 4) % 8)).length < n := by
          rw [List.length_drop]
          omega
        obtain ⟨off, hoff, hty, hsz', hdata, hdlen⟩ := ih _ hlt _ _ le_rfl hrec e he'
        rw [List.length_drop] at hoff
        refine ⟨8 + be32 (buf.drop 4) + be32 (buf.drop 4) % 8 + off, by omega, ?_, ?_, ?_, hdlen⟩
        · rw [List.drop_drop] at hty
          exact hty
        · rw [List.drop_drop] at hsz'
          rw [Nat.add_assoc]
          exact hsz'
        · rw [List.drop_drop] at hdata
          rw [Nat.add_assoc]
          exact hdata

/-- Claim C9: a successful walk collects exactly the nonzero-tagged records,
in on-disk order, with no filtering on the tag value and no payload
interpretation, and the terminator is never in the list: any buffer
whose head record has a nonzero tag contributes that record in front of
the walk of the remaining bytes, and every record of a successful walk
has a nonzero type tag. -/
theorem walk_appends_all_nonzero_records :
    (∀ buf : List Nat, 8 ≤ buf.length → be32 buf ≠ HdrExtEndOfArea →
      8 + be32 (buf.drop 4) + be32 (buf.drop 4) % 8 ≤ buf.length →
      walkExtensions buf = consExt
        ⟨be32 buf, be32 (buf.drop 4), (buf.drop 8).take (be32 (buf.drop 4))⟩
        (walkExtensions (buf.drop (8 + be32 (buf.drop 4) + be32 (buf.drop 4) % 8)))) ∧
    (∀ buf exts, walkExtensions buf = .ok exts →
      ∀ e ∈ exts, e.extType ≠ HdrExtEndOfArea) := by
  constructor
  · intro buf h8 ht hs
    exact walkLoop_cons buf h8 ht hs
  · intro buf exts hw
    exact walkLoop_ok_no_terminator buf.length buf exts le_rfl hw

/-- Evaluation of the walk on `tag7Buf`. -/
lemma walk_tag7Buf : walkExtensions tag7Buf = .ok [⟨7, 0, []⟩] := by
  unfold walkExtensions
  rw [walkLoop]
  norm_num [be32, HdrExtEndOfArea, tag7Buf]
  rw [walkLoop]
  norm_num [be32, HdrExtEndOfArea, consExt]

/-- Witness for `walk_appends_all_nonzero_records` on `tag7Buf`. -/
theorem walk_appends_all_nonzero_records_w :
    walkExtensions tag7Buf = consExt ⟨7, 0, []⟩ (walkExtensions (tag7Buf.drop 8)) ∧
    ∀ e ∈ [(⟨7, 0, []⟩ : ExtHeader)], e.extType ≠ HdrExtEndOfArea := by
  constructor
  · have h := walk_appends_all_nonzero_records.1 tag7Buf (by decide) (by decide) (by decide)
    simpa [tag7Buf, be32] using h
  · exact walk_appends_all_nonzero_records.2 tag7Buf [⟨7, 0, []⟩] walk_tag7Buf

/-- Claim C10: every record of a successful walk carries the 32-bit
big-endian size read at bytes [4:8] of its record, and data equal to
exactly that many input bytes immediately after its 8-byte header; the
walk only reads the buffer (the embedding is a pure function of it). -/
theorem walk_record_size_data_faithful (buf : List Nat) (exts : List ExtHeader)
    (hw : walkExtensions buf = .ok exts) :
    ∀ e ∈ exts, ∃ off, off + 8 + e.Size ≤ buf.length ∧
      e.extType = be32 (buf.drop off) ∧
      e.Size = be32 (buf.drop (off + 4)) ∧
      e.Data = (buf.drop (off + 8)).take e.Size ∧
      e.Data.length = e.Size :=
  walkLoop_ok_layout buf.length buf exts le_rfl hw

/-- Evaluation of the walk on `caBuf`. -/
lemma walk_caBuf : walkExtensions caBuf = .ok [⟨0xCA, 4, [1,2,3,4]⟩] := by
  unfold walkExtensions
  rw [walkLoop]
  norm_num [be32, HdrExtEndOfArea, caBuf]
  rw [walkLoop]
  norm_num [be32, HdrExtEndOfArea, consExt]

/-- Witness for `walk_record_size_data_faithful` on `caBuf`. -/
theorem walk_record_size_data_faithful_w :
    ∃ off, off + 8 + (⟨0xCA, 4, [1,2,3,4]⟩ : ExtHeader).Size ≤ caBuf.length ∧
      (⟨0xCA, 4, [1,2,3,4]⟩ : ExtHeader).extType = be32 (caBuf.drop off) ∧
      (⟨0xCA, 4, [1,2,3,4]⟩ : ExtHeader).Size = be32 (caBuf.drop (off + 4)) ∧
      (⟨0xCA, 4, [1,2,3,4]⟩ : ExtHeader).Data = (caBuf.drop (off + 8)).take
        (⟨0xCA, 4, [1,2,3,4]⟩ : ExtHeader).Size ∧
      (⟨0xCA, 4, [1,2,3,4]⟩ : ExtHeader).Data.length =
        (⟨0xCA, 4, [1,2,3,4]⟩ : ExtHeader).Size :=
  walk_record_size_data_faithful caBuf [⟨0xCA, 4, [1,2,3,4]⟩] walk_caBuf
    ⟨0xCA, 4, [1,2,3,4]⟩ (by simp)
